import Mathlib

/-!
Verification of the risk-gated order-submission and PnL accounting core of
the `binance` trading backend (`src/backend/utility.py`).

The embedding models Python dicts as association lists over `String` keys,
Python floats as exact rationals (`ℚ`), and each method of `RiskManager` /
`TradingUtils` as a Lean function translated statement by statement from the
source.  Python's `round(x, 2)` is modelled as exact decimal
round-half-to-even (`pyRound2`).
-/

namespace Binance

/-- Python `d.get(k, default)` on an association list: value of the first
entry whose key is `k`, or the default. -/
def getD {α : Type} (m : List (String × α)) (k : String) (d : α) : α :=
  match m with
  | [] => d
  | p :: rest => if p.1 = k then p.2 else getD rest k d

/-- Python `k in d` on an association list. -/
def hasKey {α : Type} (m : List (String × α)) (k : String) : Bool :=
  match m with
  | [] => false
  | p :: rest => p.1 = k || hasKey rest k

/-- Python `d[k] = v` on an association list: replace the first entry whose
key is `k`, or append a new entry at the end (dict insertion order). -/
def setKey {α : Type} (m : List (String × α)) (k : String) (v : α) : List (String × α) :=
  match m with
  | [] => [(k, v)]
  | p :: rest => if p.1 = k then (k, v) :: rest else p :: setKey rest k v

/-- Round-half-to-even to an integer, as Python `round` does on exact
decimal arguments. -/
def roundHalfEven (q : ℚ) : ℤ :=
  let n := ⌊q⌋
  let f := q - n
  if f < 1/2 then n
  else if 1/2 < f then n + 1
  else if n % 2 = 0 then n else n + 1

/-- Python `round(x, 2)`: round to two decimal places, ties to even. -/
def pyRound2 (q : ℚ) : ℚ :=
  (roundHalfEven (q * 100) : ℚ) / 100

/-- State of `RiskManager`: the two limits fixed at construction plus the
mutable `daily_pnl` accumulator and per-symbol `positions` dict. -/
structure RMState where
  max_daily_loss : ℚ
  max_position_size : ℚ
  daily_pnl : ℚ
  positions : List (String × ℚ)
deriving DecidableEq, Repr

/-- `RiskManager.__init__`: limits from the caller, `daily_pnl = 0`,
`positions = {}`. -/
def RMState.init (max_daily_loss max_position_size : ℚ) : RMState :=
  ⟨max_daily_loss, max_position_size, 0, []⟩

/-- A `RiskManager` built with the constructor defaults
(`max_daily_loss=1000`, `max_position_size=0.1`). -/
def initialRM : RMState := RMState.init 1000 (1/10)

/-- `RiskManager.can_place_order`, translated line by line.  The account
size `10000` is the hard-coded constant from the source. -/
def can_place_order (s : RMState) (symbol side : String) (quantity price : ℚ) :
    Bool × String :=
  if s.daily_pnl ≤ -s.max_daily_loss then
    (false, "Daily loss limit exceeded")
  else
    let position_value := quantity * price
    if s.max_position_size * 10000 < position_value then
      (false, "Position size too large")
    else
      let current_position := getD s.positions symbol 0
      let new_position :=
        if side = "BUY" then current_position + quantity
        else current_position - quantity
      if s.max_position_size * 10000 < |new_position * price| then
        (false, "Position limit would be exceeded")
      else
        (true, "Order approved")

/-- `RiskManager.can_place_order` in explicit state-passing form: each
return site hands back the (unmodified) `self` together with the decision;
the method body contains no assignment to `self`. -/
def can_place_order_st (s : RMState) (symbol side : String) (quantity price : ℚ) :
    RMState × (Bool × String) :=
  if s.daily_pnl ≤ -s.max_daily_loss then
    (s, (false, "Daily loss limit exceeded"))
  else
    let position_value := quantity * price
    if s.max_position_size * 10000 < position_value then
      (s, (false, "Position size too large"))
    else
      let current_position := getD s.positions symbol 0
      let new_position :=
        if side = "BUY" then current_position + quantity
        else current_position - quantity
      if s.max_position_size * 10000 < |new_position * price| then
        (s, (false, "Position limit would be exceeded"))
      else
        (s, (true, "Order approved"))

/-- `RiskManager.update_position`: ensure the symbol has an entry, add the
quantity for side `'BUY'` and subtract it otherwise, then add
`quantity * price` to `daily_pnl` for side `'SELL'` and subtract it
otherwise. -/
def update_position (s : RMState) (symbol side : String) (quantity price : ℚ) :
    RMState :=
  let positions0 :=
    if hasKey s.positions symbol then s.positions
    else s.positions ++ [(symbol, 0)]
  let positions1 :=
    if side = "BUY" then
      setKey positions0 symbol (getD positions0 symbol 0 + quantity)
    else
      setKey positions0 symbol (getD positions0 symbol 0 - quantity)
  let pnl_change :=
    if side = "SELL" then quantity * price else -(quantity * price)
  { s with positions := positions1, daily_pnl := s.daily_pnl + pnl_change }

/-- The dictionary returned by `RiskManager.get_risk_metrics`. -/
structure RiskMetrics where
  daily_pnl : ℚ
  max_daily_loss : ℚ
  positions : List (String × ℚ)
  risk_utilization : ℚ
deriving DecidableEq, Repr

/-- `RiskManager.get_risk_metrics` in state-passing form.  The division in
`risk_utilization` raises `ZeroDivisionError` in Python when
`max_daily_loss = 0`, modelled as `none`; otherwise the method is a pure
read of `self`. -/
def get_risk_metrics (s : RMState) : RMState × Option RiskMetrics :=
  if s.max_daily_loss = 0 then (s, none)
  else
    (s, some ⟨s.daily_pnl, s.max_daily_loss, s.positions,
              |s.daily_pnl| / s.max_daily_loss * 100⟩)

/-- One entry of the `symbol_pnl` dict in `TradingUtils.calculate_pnl`. -/
structure SymbolPnl where
  realized_pnl : ℚ
  volume : ℚ
deriving DecidableEq, Repr

/-- One executed trade, as consumed by `TradingUtils.calculate_pnl`. -/
structure Trade where
  symbol : String
  side : String
  quantity : ℚ
  price : ℚ
deriving DecidableEq, Repr

/-- The body of the `for trade in trades` loop of
`TradingUtils.calculate_pnl`: ensure an entry for the trade's symbol, add
`quantity * price` to its `realized_pnl` for side `'SELL'` and subtract it
otherwise, and add `quantity * price` to its `volume`. -/
def pnlStep (m : List (String × SymbolPnl)) (t : Trade) : List (String × SymbolPnl) :=
  let m0 := if hasKey m t.symbol then m else m ++ [(t.symbol, ⟨0, 0⟩)]
  let cur := getD m0 t.symbol ⟨0, 0⟩
  let cur1 :=
    if t.side = "SELL" then
      { cur with realized_pnl := cur.realized_pnl + t.quantity * t.price }
    else
      { cur with realized_pnl := cur.realized_pnl - t.quantity * t.price }
  let cur2 := { cur1 with volume := cur1.volume + t.quantity * t.price }
  setKey m0 t.symbol cur2

/-- The result dict of `TradingUtils.calculate_pnl`. -/
structure PnlResult where
  total_pnl : ℚ
  symbol_breakdown : List (String × SymbolPnl)
deriving DecidableEq, Repr

/-- `sum(data['realized_pnl'] for data in symbol_pnl.values())`. -/
def sumRealized (m : List (String × SymbolPnl)) : ℚ :=
  (m.map (fun p => p.2.realized_pnl)).sum

/-- `TradingUtils.calculate_pnl`: fold the loop body over the trade list,
then report the sum of per-symbol realized PnL rounded to two decimals
(`round(total_pnl, 2)`) next to the unrounded breakdown. -/
def calculate_pnl (trades : List Trade) : PnlResult :=
  let m := trades.foldl pnlStep []
  ⟨pyRound2 (sumRealized m), m⟩

/-- The signed contribution of a single trade to realized PnL:
`+quantity*price` for side exactly `'SELL'`, `-quantity*price` otherwise. -/
def signedNotional (t : Trade) : ℚ :=
  if t.side = "SELL" then t.quantity * t.price else -(t.quantity * t.price)

/-! ### Association-list lemmas -/

theorem getD_setKey_self {α : Type} (m : List (String × α)) (k : String) (v d : α) :
    getD (setKey m k v) k d = v := by
  induction m with
  | nil => simp [setKey, getD]
  | cons p rest ih =>
    by_cases h : p.1 = k
    · simp [setKey, h, getD]
    · simp [setKey, h, getD, ih]

theorem getD_eq_default_of_not_hasKey {α : Type} (m : List (String × α)) (k : String)
    (d : α) (h : hasKey m k = false) : getD m k d = d := by
  induction m with
  | nil => rfl
  | cons p rest ih =>
    simp only [hasKey, Bool.or_eq_false_iff, decide_eq_false_iff_not] at h
    simp [getD, h.1, ih h.2]

theorem getD_append_single {α : Type} (m : List (String × α)) (k : String) (v d : α)
    (h : hasKey m k = false) : getD (m ++ [(k, v)]) k d = v := by
  induction m with
  | nil => simp [getD]
  | cons p rest ih =>
    simp only [hasKey, Bool.or_eq_false_iff, decide_eq_false_iff_not] at h
    simp [getD, h.1, ih h.2]

theorem hasKey_append_single {α : Type} (m : List (String × α)) (k : String) (v : α) :
    hasKey (m ++ [(k, v)]) k = true := by
  induction m with
  | nil => simp [hasKey]
  | cons p rest ih => simp [hasKey, ih]

theorem sumRealized_append_single (m : List (String × SymbolPnl)) (k : String)
    (v : SymbolPnl) : sumRealized (m ++ [(k, v)]) = sumRealized m + v.realized_pnl := by
  simp [sumRealized]

theorem sumRealized_setKey (m : List (String × SymbolPnl)) (k : String) (v : SymbolPnl)
    (h : hasKey m k = true) :
    sumRealized (setKey m k v) =
      sumRealized m - (getD m k ⟨0, 0⟩).realized_pnl + v.realized_pnl := by
  induction m with
  | nil => simp [hasKey] at h
  | cons p rest ih =>
    by_cases hp : p.1 = k
    · simp [setKey, hp, sumRealized, getD]
      ring
    · simp only [hasKey, Bool.or_eq_true, decide_eq_true_eq] at h
      rcases h with h | h
      · exact absurd h hp
      · simp only [setKey, hp, if_false, getD]
        simp only [sumRealized, List.map_cons, List.sum_cons] at ih ⊢
        rw [ih h]
        ring

/-! ### Behaviour of `update_position` -/

/-- Effect of one `update_position` call on the touched symbol's position
and on `daily_pnl`, for arbitrary side, quantity and price. -/
theorem update_position_spec (s : RMState) (symbol side : String) (quantity price : ℚ) :
    getD (update_position s symbol side quantity price).positions symbol 0 =
      getD s.positions symbol 0 + (if side = "BUY" then quantity else -quantity) ∧
    (update_position s symbol side quantity price).daily_pnl =
      s.daily_pnl + (if side = "SELL" then quantity * price else -(quantity * price)) ∧
    (update_position s symbol side quantity price).max_daily_loss = s.max_daily_loss ∧
    (update_position s symbol side quantity price).max_position_size =
      s.max_position_size := by
  have hget : getD (if hasKey s.positions symbol then s.positions
      else s.positions ++ [(symbol, (0 : ℚ))]) symbol 0 = getD s.positions symbol 0 := by
    by_cases h : hasKey s.positions symbol
    · simp [h]
    · have h' : hasKey s.positions symbol = false := by
        simpa using h
      rw [if_neg (by simp [h']), getD_append_single _ _ _ _ h',
        getD_eq_default_of_not_hasKey _ _ _ h']
  refine ⟨?_, ?_, rfl, rfl⟩
  · by_cases hside : side = "BUY"
    · simp only [update_position, hside, if_true, getD_setKey_self, hget]
    · simp only [update_position, hside, if_false, getD_setKey_self, hget]
      ring
  · rfl

/-! ### Behaviour of `pnlStep` -/

/-- Effect of one loop iteration of `calculate_pnl` on the touched symbol's
cumulative realized PnL. -/
theorem pnlStep_realized (m : List (String × SymbolPnl)) (t : Trade) :
    (getD (pnlStep m t) t.symbol ⟨0, 0⟩).realized_pnl =
      (getD m t.symbol ⟨0, 0⟩).realized_pnl +
        (if t.side = "SELL" then t.quantity * t.price else -(t.quantity * t.price)) := by
  have hget : getD (if hasKey m t.symbol then m
      else m ++ [(t.symbol, (⟨0, 0⟩ : SymbolPnl))]) t.symbol ⟨0, 0⟩ =
      getD m t.symbol ⟨0, 0⟩ := by
    by_cases h : hasKey m t.symbol
    · simp [h]
    · have h' : hasKey m t.symbol = false := by simpa using h
      rw [if_neg (by simp [h']), getD_append_single _ _ _ _ h',
        getD_eq_default_of_not_hasKey _ _ _ h']
  by_cases hside : t.side = "SELL"
  · simp only [pnlStep, hside, if_true, getD_setKey_self, hget]
  · simp only [pnlStep, hside, if_false, getD_setKey_self, hget]
    ring

/-- One loop iteration moves the sum of per-symbol realized PnL by exactly
the trade's signed notional. -/
theorem sumRealized_pnlStep (m : List (String × SymbolPnl)) (t : Trade) :
    sumRealized (pnlStep m t) = sumRealized m + signedNotional t := by
  by_cases h : hasKey m t.symbol
  · have hget := getD_setKey_self m t.symbol
    simp only [pnlStep, h, if_true]
    rw [sumRealized_setKey _ _ _ h]
    by_cases hside : t.side = "SELL" <;>
      simp [hside, signedNotional] <;> ring
  · have h' : hasKey m t.symbol = false := by simpa using h
    simp only [pnlStep, h', Bool.false_eq_true, if_false]
    rw [sumRealized_setKey _ _ _ (hasKey_append_single m t.symbol _),
      getD_append_single _ _ _ _ h', sumRealized_append_single]
    by_cases hside : t.side = "SELL" <;> simp [hside, signedNotional]

/-- Over any fold of `pnlStep`, the per-symbol realized PnL sums to the
starting sum plus the signed notionals of all trades. -/
theorem sumRealized_foldl (trades : List Trade) (m : List (String × SymbolPnl)) :
    sumRealized (trades.foldl pnlStep m) =
      sumRealized m + (trades.map signedNotional).sum := by
  induction trades generalizing m with
  | nil => simp
  | cons t rest ih =>
    simp only [List.foldl_cons, List.map_cons, List.sum_cons]
    rw [ih, sumRealized_pnlStep]
    ring

/-- `can_place_order` with its local bindings inlined, for case analysis. -/
theorem can_place_order_def (s : RMState) (symbol side : String) (quantity price : ℚ) :
    can_place_order s symbol side quantity price =
      if s.daily_pnl ≤ -s.max_daily_loss then (false, "Daily loss limit exceeded")
      else if s.max_position_size * 10000 < quantity * price then
        (false, "Position size too large")
      else if s.max_position_size * 10000 <
          |(if side = "BUY" then getD s.positions symbol 0 + quantity
            else getD s.positions symbol 0 - quantity) * price| then
        (false, "Position limit would be exceeded")
      else (true, "Order approved") := rfl

/-! ### Claims -/

/-- C1: a valid fill (side BUY or SELL, positive quantity and price) moves
the symbol's position by `+quantity` for BUY and `-quantity` for SELL, and
moves the symbol's realized PnL and the running total by `+quantity*price`
for SELL and `-quantity*price` for BUY; concretely, from position 0 for
BTCUSDT a BUY of 2 gives position 2, a further SELL of 3 gives -1, and
BUY 1 at 100 followed by SELL 1 at 150 gives realized PnL 50. -/
theorem applyFill_signed_deltas (s : RMState) (m : List (String × SymbolPnl))
    (symbol side : String) (quantity price : ℚ)
    (_hside : side = "BUY" ∨ side = "SELL") (_hq : 0 < quantity) (_hp : 0 < price) :
    getD (update_position s symbol side quantity price).positions symbol 0 =
      getD s.positions symbol 0 + (if side = "BUY" then quantity else -quantity) ∧
    (update_position s symbol side quantity price).daily_pnl =
      s.daily_pnl + (if side = "SELL" then quantity * price else -(quantity * price)) ∧
    (getD (pnlStep m ⟨symbol, side, quantity, price⟩) symbol ⟨0, 0⟩).realized_pnl =
      (getD m symbol ⟨0, 0⟩).realized_pnl +
        (if side = "SELL" then quantity * price else -(quantity * price)) ∧
    getD (update_position initialRM "BTCUSDT" "BUY" 2 1).positions "BTCUSDT" 0 = 2 ∧
    getD (update_position (update_position initialRM "BTCUSDT" "BUY" 2 1)
      "BTCUSDT" "SELL" 3 1).positions "BTCUSDT" 0 = -1 ∧
    (getD (calculate_pnl
        [⟨"BTCUSDT", "BUY", 1, 100⟩, ⟨"BTCUSDT", "SELL", 1, 150⟩]).symbol_breakdown
      "BTCUSDT" ⟨0, 0⟩).realized_pnl = 50 := by
  refine ⟨(update_position_spec s symbol side quantity price).1,
    (update_position_spec s symbol side quantity price).2.1,
    pnlStep_realized m ⟨symbol, side, quantity, price⟩, ?_, ?_, ?_⟩
  · norm_num [update_position, initialRM, RMState.init, hasKey, getD, setKey]
  · norm_num [update_position, initialRM, RMState.init, hasKey, getD, setKey]
  · simp [calculate_pnl, pnlStep, hasKey, getD, setKey]
    norm_num

/-- Witness for C1 at a concrete valid fill: a BUY of 1 at price 1 from the
fresh ledger yields position 1. -/
theorem applyFill_signed_deltas_witness :
    getD (update_position initialRM "BTCUSDT" "BUY" 1 1).positions "BTCUSDT" 0 = 1 := by
  have h := (applyFill_signed_deltas initialRM [] "BTCUSDT" "BUY" 1 1
    (Or.inl rfl) (by norm_num) (by norm_num)).1
  rw [h, if_pos rfl]
  norm_num [initialRM, RMState.init, getD]

/-- C2: whenever `daily_pnl ≤ -max_daily_loss`, `can_place_order` rejects
with the daily-loss reason for every order, whatever its symbol, side,
quantity and price; in particular an order that also violates the
position-size limit still reports only this reason. -/
theorem daily_loss_check_first (s : RMState) (symbol side : String) (quantity price : ℚ)
    (h : s.daily_pnl ≤ -s.max_daily_loss) :
    can_place_order s symbol side quantity price =
      (false, "Daily loss limit exceeded") := by
  rw [can_place_order_def, if_pos h]

/-- Witness for C2: at the daily-loss boundary, an order whose notional
10000 also exceeds the position-size limit 1000 is rejected with the
daily-loss reason only. -/
theorem daily_loss_check_first_witness :
    can_place_order ⟨1000, 1/10, -1000, []⟩ "BTCUSDT" "BUY" 100 100 =
      (false, "Daily loss limit exceeded") :=
  daily_loss_check_first ⟨1000, 1/10, -1000, []⟩ "BTCUSDT" "BUY" 100 100 (by norm_num)

/-- C3: once the daily-loss check passes, the order is rejected with
reason "Position size too large" exactly when `quantity * price` strictly
exceeds `max_position_size * 10000`; concretely, with limits 1000 / 0.1 of
a 10000 account and PnL 0, quantity 15 at price 100 (notional 1500) is
rejected with that reason. -/
theorem position_size_check (s : RMState) (symbol side : String) (quantity price : ℚ)
    (h : -s.max_daily_loss < s.daily_pnl) :
    (can_place_order s symbol side quantity price = (false, "Position size too large") ↔
      s.max_position_size * 10000 < quantity * price) ∧
    can_place_order ⟨1000, 1/10, 0, []⟩ "BTCUSDT" "BUY" 15 100 =
      (false, "Position size too large") := by
  have hd : ¬ s.daily_pnl ≤ -s.max_daily_loss := not_le.mpr h
  refine ⟨⟨?_, ?_⟩, by norm_num [can_place_order, getD]⟩
  · intro hres
    by_contra h2
    rw [can_place_order_def, if_neg hd, if_neg h2] at hres
    by_cases h3 : s.max_position_size * 10000 <
        |(if side = "BUY" then getD s.positions symbol 0 + quantity
          else getD s.positions symbol 0 - quantity) * price|
    · rw [if_pos h3] at hres
      simp only [Prod.mk.injEq] at hres
      exact absurd hres.2 (by decide)
    · rw [if_neg h3] at hres
      simp only [Prod.mk.injEq] at hres
      exact absurd hres.1 (by decide)
  · intro h2
    rw [can_place_order_def, if_neg hd, if_pos h2]

/-- Witness for C3 at the concrete configuration from the spec. -/
theorem position_size_check_witness :
    can_place_order ⟨1000, 1/10, 0, []⟩ "BTCUSDT" "BUY" 15 100 =
      (false, "Position size too large") := by
  have h := position_size_check ⟨1000, 1/10, 0, []⟩ "BTCUSDT" "BUY" 15 100 (by norm_num)
  exact h.1.mpr (by norm_num)

/-- C4: once the daily-loss and notional checks pass, the order is rejected
with reason "Position limit would be exceeded" exactly when the prospective
position (current position, zero for an unseen symbol, plus quantity for
BUY and minus quantity for SELL) times the price strictly exceeds the same
threshold in absolute value; otherwise the order is approved. -/
theorem position_limit_check (s : RMState) (symbol side : String) (quantity price : ℚ)
    (h1 : -s.max_daily_loss < s.daily_pnl)
    (h2 : quantity * price ≤ s.max_position_size * 10000)
    (_hside : side = "BUY" ∨ side = "SELL") :
    (can_place_order s symbol side quantity price =
        (false, "Position limit would be exceeded") ↔
      s.max_position_size * 10000 <
        |(if side = "BUY" then getD s.positions symbol 0 + quantity
          else getD s.positions symbol 0 - quantity) * price|) ∧
    (¬ s.max_position_size * 10000 <
        |(if side = "BUY" then getD s.positions symbol 0 + quantity
          else getD s.positions symbol 0 - quantity) * price| →
      can_place_order s symbol side quantity price = (true, "Order approved")) := by
  have hd : ¬ s.daily_pnl ≤ -s.max_daily_loss := not_le.mpr h1
  have hn : ¬ s.max_position_size * 10000 < quantity * price := not_lt.mpr h2
  constructor
  · constructor
    · intro hres
      by_contra h3
      rw [can_place_order_def, if_neg hd, if_neg hn, if_neg h3] at hres
      simp only [Prod.mk.injEq] at hres
      exact absurd hres.1 (by decide)
    · intro h3
      rw [can_place_order_def, if_neg hd, if_neg hn, if_pos h3]
  · intro h3
    rw [can_place_order_def, if_neg hd, if_neg hn, if_neg h3]

/-- Witness for C4: from the fresh ledger, a SELL of 2 at price 100 passes
all three checks and is approved. -/
theorem position_limit_check_witness :
    can_place_order initialRM "BTCUSDT" "SELL" 2 100 = (true, "Order approved") := by
  have h := position_limit_check initialRM "BTCUSDT" "SELL" 2 100
    (by norm_num [initialRM, RMState.init]) (by norm_num [initialRM, RMState.init])
    (Or.inr rfl)
  refine h.2 ?_
  rw [if_neg (by decide : ¬ ("SELL" : String) = "BUY")]
  norm_num [initialRM, RMState.init, getD]

/-- C5 counterexample: a single valid SELL of 1 at price 1/1000 gives a
per-symbol realized PnL of 1/1000 but a reported total of 0, because
`calculate_pnl` rounds the total to two decimals and the breakdown not. -/
theorem total_pnl_rounding_cex :
    (calculate_pnl [⟨"BTCUSDT", "SELL", 1, 1/1000⟩]).total_pnl = 0 ∧
    sumRealized (calculate_pnl [⟨"BTCUSDT", "SELL", 1, 1/1000⟩]).symbol_breakdown =
      1/1000 ∧
    (calculate_pnl [⟨"BTCUSDT", "SELL", 1, 1/1000⟩]).total_pnl ≠
      sumRealized (calculate_pnl [⟨"BTCUSDT", "SELL", 1, 1/1000⟩]).symbol_breakdown := by
  have hm : ([⟨"BTCUSDT", "SELL", 1, 1/1000⟩] : List Trade).foldl pnlStep [] =
      [("BTCUSDT", ⟨1/1000, 1/1000⟩)] := by
    simp [pnlStep, hasKey, getD, setKey]
  have ht : (calculate_pnl [⟨"BTCUSDT", "SELL", 1, 1/1000⟩]).total_pnl =
      pyRound2 (sumRealized (([⟨"BTCUSDT", "SELL", 1, 1/1000⟩] : List Trade).foldl
        pnlStep [])) := rfl
  have hb : (calculate_pnl [⟨"BTCUSDT", "SELL", 1, 1/1000⟩]).symbol_breakdown =
      ([⟨"BTCUSDT", "SELL", 1, 1/1000⟩] : List Trade).foldl pnlStep [] := rfl
  have hsum : sumRealized [("BTCUSDT", (⟨1/1000, 1/1000⟩ : SymbolPnl))] = 1/1000 := by
    simp [sumRealized]
  refine ⟨?_, ?_, ?_⟩
  · rw [ht, hm, hsum]
    unfold pyRound2 roundHalfEven
    norm_num
  · rw [hb, hm, hsum]
  · rw [ht, hb, hm, hsum]
    unfold pyRound2 roundHalfEven
    norm_num

/-- C5 (amended): the total reported by `calculate_pnl` equals the sum of
per-symbol realized PnL rounded to two decimal places, not the exact sum;
the unrounded per-symbol sum in turn equals the signed sum of
`quantity * price` over all trades. -/
theorem total_pnl_eq_rounded_sum (trades : List Trade) :
    (calculate_pnl trades).total_pnl =
      pyRound2 (sumRealized (calculate_pnl trades).symbol_breakdown) ∧
    sumRealized (calculate_pnl trades).symbol_breakdown =
      (trades.map signedNotional).sum := by
  refine ⟨rfl, ?_⟩
  have h := sumRealized_foldl trades []
  rw [show sumRealized ([] : List (String × SymbolPnl)) = 0 from rfl, zero_add] at h
  exact h

/-- C6 counterexample: an order with quantity 0 and price 0 is not an
error; `can_place_order` returns the normal approval decision. -/
theorem evaluate_no_validation_cex :
    can_place_order initialRM "BTCUSDT" "BUY" 0 0 = (true, "Order approved") := by
  rw [can_place_order_def]
  rw [if_neg (by norm_num [initialRM, RMState.init] :
    ¬ initialRM.daily_pnl ≤ -initialRM.max_daily_loss)]
  rw [if_neg (by norm_num [initialRM, RMState.init] :
    ¬ initialRM.max_position_size * 10000 < (0 : ℚ) * 0)]
  rw [if_pos (rfl : ("BUY" : String) = "BUY")]
  rw [if_neg (by norm_num [initialRM, RMState.init, getD] :
    ¬ initialRM.max_position_size * 10000 <
      |(getD initialRM.positions "BTCUSDT" 0 + 0) * 0|)]

/-- C6 (amended): `can_place_order` performs no input validation; for
quantity ≤ 0 or price ≤ 0 it still returns one of the four normal
decisions, never an error. -/
theorem evaluate_total_on_malformed (s : RMState) (symbol side : String)
    (quantity price : ℚ) (_h : quantity ≤ 0 ∨ price ≤ 0) :
    can_place_order s symbol side quantity price = (false, "Daily loss limit exceeded") ∨
    can_place_order s symbol side quantity price = (false, "Position size too large") ∨
    can_place_order s symbol side quantity price =
      (false, "Position limit would be exceeded") ∨
    can_place_order s symbol side quantity price = (true, "Order approved") := by
  rw [can_place_order_def]
  split_ifs <;> simp

/-- Witness for the amended C6 at quantity 0, price 0. -/
theorem evaluate_total_on_malformed_witness :
    can_place_order initialRM "BTCUSDT" "BUY" 0 0 = (false, "Daily loss limit exceeded") ∨
    can_place_order initialRM "BTCUSDT" "BUY" 0 0 = (false, "Position size too large") ∨
    can_place_order initialRM "BTCUSDT" "BUY" 0 0 =
      (false, "Position limit would be exceeded") ∨
    can_place_order initialRM "BTCUSDT" "BUY" 0 0 = (true, "Order approved") :=
  evaluate_total_on_malformed initialRM "BTCUSDT" "BUY" 0 0 (Or.inl le_rfl)

/-- C7 counterexample: a malformed fill (quantity -1 ≤ 0, price -5 ≤ 0,
side "HOLD" neither BUY nor SELL) is not rejected; `update_position`
changes the ledger, moving the position from 0 to 1 and the PnL from 0 to
-5. -/
theorem applyFill_no_validation_cex :
    getD (update_position initialRM "BTCUSDT" "HOLD" (-1) (-5)).positions "BTCUSDT" 0 =
      1 ∧
    (update_position initialRM "BTCUSDT" "HOLD" (-1) (-5)).daily_pnl = -5 ∧
    getD initialRM.positions "BTCUSDT" 0 = 0 ∧ initialRM.daily_pnl = 0 := by
  refine ⟨?_, ?_, rfl, rfl⟩ <;>
    simp [update_position, initialRM, RMState.init, hasKey, getD, setKey]

/-- C7 (amended): `update_position` performs no validation and never fails:
for every quantity, price and side it adds the quantity to the position for
side exactly "BUY" and subtracts it otherwise, and adds `quantity * price`
to the running PnL for side exactly "SELL" and subtracts it otherwise. -/
theorem applyFill_total_behaviour (s : RMState) (symbol side : String)
    (quantity price : ℚ) :
    getD (update_position s symbol side quantity price).positions symbol 0 =
      getD s.positions symbol 0 + (if side = "BUY" then quantity else -quantity) ∧
    (update_position s symbol side quantity price).daily_pnl =
      s.daily_pnl + (if side = "SELL" then quantity * price else -(quantity * price)) :=
  ⟨(update_position_spec s symbol side quantity price).1,
   (update_position_spec s symbol side quantity price).2.1⟩

/-- `can_place_order_st` with its local bindings inlined. -/
theorem can_place_order_st_def (s : RMState) (symbol side : String)
    (quantity price : ℚ) :
    can_place_order_st s symbol side quantity price =
      if s.daily_pnl ≤ -s.max_daily_loss then (s, (false, "Daily loss limit exceeded"))
      else if s.max_position_size * 10000 < quantity * price then
        (s, (false, "Position size too large"))
      else if s.max_position_size * 10000 <
          |(if side = "BUY" then getD s.positions symbol 0 + quantity
            else getD s.positions symbol 0 - quantity) * price| then
        (s, (false, "Position limit would be exceeded"))
      else (s, (true, "Order approved")) := rfl

/-- C8: `can_place_order` mutates nothing: the positions, the running PnL
and both configured limits are unchanged by the call, and its decision is
the pure function of the state. -/
theorem evaluate_read_only (s : RMState) (symbol side : String) (quantity price : ℚ) :
    (can_place_order_st s symbol side quantity price).1.positions = s.positions ∧
    (can_place_order_st s symbol side quantity price).1.daily_pnl = s.daily_pnl ∧
    (can_place_order_st s symbol side quantity price).1.max_daily_loss =
      s.max_daily_loss ∧
    (can_place_order_st s symbol side quantity price).1.max_position_size =
      s.max_position_size ∧
    (can_place_order_st s symbol side quantity price).2 =
      can_place_order s symbol side quantity price := by
  have h1 : (can_place_order_st s symbol side quantity price).1 = s := by
    rw [can_place_order_st_def]
    split_ifs <;> rfl
  have h2 : (can_place_order_st s symbol side quantity price).2 =
      can_place_order s symbol side quantity price := by
    rw [can_place_order_st_def, can_place_order_def]
    split_ifs <;> rfl
  exact ⟨by rw [h1], by rw [h1], by rw [h1], by rw [h1], h2⟩

/-- C9: reading the risk metrics twice with no intervening fill returns
the same snapshot, and the read leaves the state untouched. -/
theorem snapshot_idempotent (s : RMState) :
    (get_risk_metrics (get_risk_metrics s).1).2 = (get_risk_metrics s).2 ∧
    (get_risk_metrics (get_risk_metrics s).1).1 = s := by
  have h1 : (get_risk_metrics s).1 = s := by
    unfold get_risk_metrics
    split_ifs <;> rfl
  rw [h1]
  exact ⟨rfl, h1⟩

/-- C10 counterexample: for side "HOLD" (not BUY), applying a fill of
quantity 1 at price 100 does subtract from the position, but the realized
PnL moves by -100, not by +100 as the claim states. -/
theorem nonbuy_side_pnl_cex :
    getD (update_position initialRM "BTCUSDT" "HOLD" 1 100).positions "BTCUSDT" 0 =
      -1 ∧
    (update_position initialRM "BTCUSDT" "HOLD" 1 100).daily_pnl = -100 ∧
    (update_position initialRM "BTCUSDT" "HOLD" 1 100).daily_pnl ≠
      initialRM.daily_pnl + 1 * 100 := by
  refine ⟨?_, ?_, ?_⟩
  · simp [update_position, initialRM, RMState.init, hasKey, getD, setKey]
  · simp [update_position, initialRM, RMState.init, hasKey, getD, setKey]
  · simp [update_position, initialRM, RMState.init, hasKey, getD, setKey]
    norm_num

/-- C10 (amended): a side that is not exactly "BUY" is treated as SELL by
`can_place_order` and by the position update of `update_position`, with no
rejection or error; but the PnL update adds `quantity * price` only for
side exactly "SELL" and subtracts it for every other side. -/
theorem nonbuy_treated_as_sell (s : RMState) (symbol side : String)
    (quantity price : ℚ) (h : side ≠ "BUY") :
    can_place_order s symbol side quantity price =
      can_place_order s symbol "SELL" quantity price ∧
    (update_position s symbol side quantity price).positions =
      (update_position s symbol "SELL" quantity price).positions ∧
    (update_position s symbol side quantity price).daily_pnl =
      s.daily_pnl + (if side = "SELL" then quantity * price else -(quantity * price)) := by
  have hS : ¬ ("SELL" : String) = "BUY" := by decide
  refine ⟨?_, ?_, (update_position_spec s symbol side quantity price).2.1⟩
  · rw [can_place_order_def, can_place_order_def, if_neg h, if_neg hS]
  · simp only [update_position]
    rw [if_neg h, if_neg hS]

/-- Witness for the amended C10 at side "HOLD", quantity 2, price 3. -/
theorem nonbuy_treated_as_sell_witness :
    can_place_order initialRM "BTCUSDT" "HOLD" 2 3 =
      can_place_order initialRM "BTCUSDT" "SELL" 2 3 ∧
    (update_position initialRM "BTCUSDT" "HOLD" 2 3).positions =
      (update_position initialRM "BTCUSDT" "SELL" 2 3).positions ∧
    (update_position initialRM "BTCUSDT" "HOLD" 2 3).daily_pnl =
      initialRM.daily_pnl + (if ("HOLD" : String) = "SELL" then 2 * 3 else -(2 * 3)) :=
  nonbuy_treated_as_sell initialRM "BTCUSDT" "HOLD" 2 3 (by decide)

end Binance
